import Mathlib

/-!
Verification development for `tools/licenses.py`, a utility that aggregates
the licensing text of a project and its vendored third-party dependencies
into a single output document.

The filesystem is modelled shallowly: a directory is a finite tree `FSDir`
carrying named files (with their contents) and named subdirectories, listed
in the enumeration order the operating system would return them in.  The
script's functions `IsLicenseFile`, `FindLicense`, `AddLicenseFile` and
`main` are translated one-to-one; exceptions raised by the script are
modelled with `Except RunError`.
-/

namespace Licenses

/-- A directory in the model filesystem: a list of files (name, contents)
and a list of named subdirectories, in enumeration order. -/
inductive FSDir : Type where
  | mk : List (String × String) → List (String × FSDir) → FSDir

/-- The files directly inside a directory. -/
def FSDir.files : FSDir → List (String × String)
  | .mk fs _ => fs

/-- The immediate subdirectories of a directory. -/
def FSDir.subdirs : FSDir → List (String × FSDir)
  | .mk _ ds => ds

mutual

/-- All files of a directory's subtree in `os.walk` top-down order:
the current directory's files first, then each subdirectory recursively. -/
def FSDir.walkFiles : FSDir → List (String × String)
  | .mk fs ds => fs ++ walkFilesList ds

/-- The `os.walk` file order of a list of subdirectories, in list order. -/
def walkFilesList : List (String × FSDir) → List (String × String)
  | [] => []
  | (_, d) :: rest => d.walkFiles ++ walkFilesList rest

end

/-- An error aborting the run: either an unhandled OSError from `open()`
on a missing override file, or the `Exception` raised by `main` when a
dependency's license text is missing or empty. -/
inductive RunError : Type where
  | ioError (path : String)
  | licenseNotFound (dep : String)
deriving DecidableEq

/-- The human-readable message attached to each error; `licenseNotFound`
mirrors the format string `license file not found in {}` of the script. -/
def RunError.message : RunError → String
  | .ioError p => "No such file or directory: " ++ p
  | .licenseNotFound d => "license file not found in " ++ d

/-- PRUNE_DIRS from the script: directories in third_party skipped by `main`. -/
def PRUNE_DIRS : List String := ["chromium_build", "config", "llvm-build", "ninja"]

/-- SPECIAL_CASES from the script, flattened to (library name, relative path):
libraries whose license is read from an explicit path instead of a search. -/
def SPECIAL_CASES : List (String × String) := [("lss", "LICENSE.lss"), ("zlib", "LICENSE.zlib")]

/-- IsLicenseFile from the script: true if the name looks like a license file. -/
def IsLicenseFile (name : String) : Bool :=
  ["LICENSE", "LICENSE.md", "LICENSE.rst", "COPYING", "COPYING.txt"].contains name

/-- Look up a file lying directly in a directory by name.  This models
opening `os.path.join(dir, name)`; the paths appearing in `SPECIAL_CASES`
are plain filenames, so no path components need to be resolved. -/
def lookupFile (root : FSDir) (name : String) : Option String :=
  (root.files.find? (fun p => p.1 == name)).map Prod.snd

/-- Look up an immediate subdirectory by name. -/
def lookupDir (root : FSDir) (name : String) : Option FSDir :=
  (root.subdirs.find? (fun p => p.1 == name)).map Prod.snd

/-- The override registered for a library name in SPECIAL_CASES, if any. -/
def lookupOverride (name : String) : Option String :=
  (SPECIAL_CASES.find? (fun p => p.1 == name)).map Prod.snd

/-- The first file in `os.walk` order whose name is a license filename,
as scanned by the loop of FindLicense. -/
def firstLicense : List (String × String) → Option String
  | [] => none
  | (n, c) :: rest => if IsLicenseFile n then some c else firstLicense rest

/-- FindLicense from the script.  For a library in SPECIAL_CASES it reads
the override file at the third_party root (an exception propagates if that
file is missing); otherwise it walks `{third_party_dir}/{library_name}` and
returns the contents of the first license-named file, or `none` if the
walk finds no such file (also when the subtree does not exist). -/
def FindLicense (third_party_dir : FSDir) (library_name : String) :
    Except RunError (Option String) :=
  match lookupOverride library_name with
  | some p =>
    match lookupFile third_party_dir p with
    | some c => .ok (some c)
    | none => .error (.ioError p)
  | none =>
    match lookupDir third_party_dir library_name with
    | some d => .ok (firstLicense d.walkFiles)
    | none => .ok none

/-- A line of `=` characters as long as `name`, i.e. `'=' * len(name)`. -/
def eqLine (name : String) : String := String.mk (List.replicate name.length '=')

/-- AddLicenseFile from the script: append a titled license block to the
accumulated document, preceded by a blank-line separator when the
accumulator is nonempty. -/
def AddLicenseFile (license_data name contents : String) : String :=
  (if license_data = "" then license_data else license_data ++ "\n\n")
    ++ name ++ "\n" ++ eqLine name ++ "\n" ++ contents

/-- Lexicographic strict comparison of two strings as lists of characters
by code point, the order Python's `sorted` uses on `str`: a strict prefix
is smaller, otherwise the first differing character decides. -/
def lexLt : List Char → List Char → Bool
  | [], [] => false
  | [], _ :: _ => true
  | _ :: _, [] => false
  | a :: as, b :: bs => if a < b then true else if b < a then false else lexLt as bs

/-- Strict lexicographic order on strings by code point. -/
def strLt (a b : String) : Bool := lexLt a.data b.data

/-- Reflexive lexicographic order on strings by code point. -/
def strLe (a b : String) : Bool := !(strLt b a)

/-- Insertion of a string into a (sorted) list of strings. -/
def insertStr (x : String) : List String → List String
  | [] => [x]
  | y :: ys => if strLe x y then x :: y :: ys else y :: insertStr x ys

/-- Ascending-order sorting of a list of strings by insertion, modelling
Python's `sorted` on a list of names. -/
def sortStrings : List String → List String
  | [] => []
  | x :: xs => insertStr x (sortStrings xs)

/-- The names returned by `os.listdir` on the third_party root, in
enumeration order (files and directories alike, unsorted). -/
def listdir (root : FSDir) : List String :=
  root.files.map Prod.fst ++ root.subdirs.map Prod.fst

/-- The `str.startswith` test of Python, used by `main` on entry names:
true when the second string's characters are a prefix of the first. -/
def strStartsWith (s pre : String) : Bool := pre.data.isPrefixOf s.data

/-- The `os.path.isdir` test of `main`, relative to the third_party root. -/
def isdir (root : FSDir) (name : String) : Bool :=
  (lookupDir root name).isSome

/-- The three `continue` filters of the loop of `main`: keep an entry when
it is a directory, does not start with `_gclient_`, and is not pruned. -/
def keepDep (root : FSDir) (d : String) : Bool :=
  isdir root d && !(strStartsWith d "_gclient_") && !(PRUNE_DIRS.contains d)

/-- The sequence of dependency directories processed by the loop of `main`:
`sorted(os.listdir(third_party_dir))` restricted by the three filters. -/
def scanDeps (root : FSDir) : List String :=
  (sortStrings (listdir root)).filter (keepDep root)

/-- The loop body of `main` over the scanned dependency names: resolve each
license, abort on a missing or empty one, and accumulate with
AddLicenseFile.  An exception from FindLicense propagates. -/
def processDeps (root : FSDir) : List String → String → Except RunError String
  | [], result => .ok result
  | d :: rest, result =>
    match FindLicense root d with
    | .error e => .error e
    | .ok none => .error (.licenseNotFound d)
    | .ok (some c) =>
      if c = "" then .error (.licenseNotFound d)
      else processDeps root rest (AddLicenseFile result d c)

/-- The inputs of one invocation: the contents of the goma LICENSE file if
it exists, the third_party directory tree, and the contents of the output
file as they are before the run (if that file exists). -/
structure RunArgs where
  goma_license : Option String
  third_party : FSDir
  output_prev : Option String

instance {e : Type u} {a : Type v} [DecidableEq e] [DecidableEq a] :
    DecidableEq (Except e a) := fun x y =>
  match x, y with
  | .ok a, .ok b =>
    if h : a = b then .isTrue (by rw [h]) else .isFalse (by simp [h])
  | .ok _, .error _ => .isFalse (by simp)
  | .error _, .ok _ => .isFalse (by simp)
  | .error a, .error b =>
    if h : a = b then .isTrue (by rw [h]) else .isFalse (by simp [h])

/-- The observable outcome of a run: the value or exception of `main`, and
the contents of the output file after the run (if it exists). -/
structure RunOutcome where
  result : Except RunError String
  output_file : Option String
deriving DecidableEq

/-- The `main` function of the script: build the Goma Client block when the
goma LICENSE file exists, process the third_party dependencies, and write
the result to the output file only when no exception was raised. -/
def runMain (a : RunArgs) : RunOutcome :=
  let init := match a.goma_license with
    | some c => AddLicenseFile "" "Goma Client" c
    | none => ""
  match processDeps a.third_party (scanDeps a.third_party) init with
  | .error e => ⟨.error e, a.output_prev⟩
  | .ok doc => ⟨.ok doc, some doc⟩

/-- Rendering of one license block as the script produces it: title line,
underline of `=` of the title's length, then the body directly. -/
def renderBlock (title body : String) : String :=
  title ++ "\n" ++ eqLine title ++ "\n" ++ body

/-- Rendering of a document: blocks joined by the separator `"\n\n"`. -/
def renderDoc : List (String × String) → String
  | [] => ""
  | b :: rest => rest.foldl (fun acc q => acc ++ ("\n\n" ++ renderBlock q.1 q.2)) (renderBlock b.1 b.2)

/-- Modelled from the spec wording of the output format: one block as
`<title>\n<'='*len(title)>\n\n<body>`, a blank line between the underline
and the body. -/
def renderBlockClaim (title body : String) : String :=
  title ++ "\n" ++ eqLine title ++ "\n\n" ++ body

/-- Modelled from the spec wording of the output format: blocks in that
shape separated by one blank line. -/
def renderDocClaim (blocks : List (String × String)) : String :=
  String.intercalate "\n\n" (blocks.map (fun b => renderBlockClaim b.1 b.2))

/-- The primary block list: one `Goma Client` block when the goma LICENSE
file exists, none otherwise. -/
def primaryBlocks (a : RunArgs) : List (String × String) :=
  match a.goma_license with
  | some c => [("Goma Client", c)]
  | none => []

/-- One block per scanned dependency, titled with the dependency name, with
body given by the resolution function `f`. -/
def depBlocks (root : FSDir) (f : String → String) : List (String × String) :=
  (scanDeps root).map (fun d => (d, f d))

/-- Modelled from the spec wording of the Scanner contract: the immediate
subdirectory names, minus the prune set and the `_gclient_` prefix, in
ascending lexicographic order. -/
def scannerSpec (root : FSDir) : List String :=
  sortStrings
    ((root.subdirs.map Prod.fst).filter
      (fun d => !(strStartsWith d "_gclient_") && !(PRUNE_DIRS.contains d)))

/-- Wellformedness of a model directory at top level: on a real filesystem
no two entries of one directory share a name. -/
def FSDir.wfNames (root : FSDir) : Prop := (listdir root).Nodup

instance (root : FSDir) : Decidable root.wfNames := by
  unfold FSDir.wfNames; infer_instance

/-- Example third_party tree: `aaa` carries a license, `bbb` only a README. -/
def exC1root : FSDir :=
  .mk [] [("aaa", .mk [("LICENSE", "MIT")] []), ("bbb", .mk [("README", "no license here")] [])]

/-- Example invocation over `exC1root` with a pre-existing output file. -/
def exC1args : RunArgs := ⟨some "GOMA", exC1root, some "old output"⟩

/-- Example third_party tree with a single conventionally licensed library. -/
def exC2root : FSDir := .mk [] [("libA", .mk [("LICENSE", "MIT")] [])]

/-- Example invocation over `exC2root` with no goma LICENSE file. -/
def exC2args : RunArgs := ⟨none, exC2root, none⟩

/-- Example third_party tree holding a stray file, a pruned directory, a
gclient temporary directory, and two genuine dependency directories given
out of lexicographic order. -/
def exC3root : FSDir :=
  .mk [("README", "hello")]
    [("zzz", .mk [] []), ("config", .mk [] []), ("_gclient_tmp", .mk [] []),
     ("abc", .mk [] [])]

/-- Example third_party tree where the overridden library `lss` also has a
conventional LICENSE file of its own in its subtree. -/
def exC4root : FSDir :=
  .mk [("LICENSE.lss", "BSD")] [("lss", .mk [("LICENSE", "WRONG")] [])]

/-- Example third_party tree for the missing-primary-license scenario. -/
def exC5root : FSDir := .mk [] [("libA", .mk [("LICENSE", "MIT")] [])]

/-- Example invocation whose goma LICENSE path does not exist. -/
def exC5args : RunArgs := ⟨none, exC5root, none⟩

/-- Example dependency whose only license file sits in a nested
subdirectory behind a non-license file. -/
def exC6dep : FSDir :=
  .mk [("README", "readme")] [("sub", .mk [("LICENSE", "APACHE")] [])]

/-- Example third_party tree containing `exC6dep`. -/
def exC6root : FSDir := .mk [] [("dep", exC6dep)]

/-- Example third_party tree where the overridden library `zlib` is present
with a conventional LICENSE, but the override file LICENSE.zlib is absent
from the root. -/
def exC7root : FSDir := .mk [] [("zlib", .mk [("LICENSE", "Z")] [])]

/-- Example invocation over `exC7root` with a pre-existing output file. -/
def exC7args : RunArgs := ⟨none, exC7root, some "previous"⟩

/-- Example third_party tree with two licensed libraries listed out of
lexicographic order. -/
def exC8root : FSDir :=
  .mk [] [("bbb", .mk [("COPYING", "B")] []), ("aaa", .mk [("LICENSE", "A")] [])]

/-- Example invocation over `exC8root` with a goma LICENSE file. -/
def exC8args : RunArgs := ⟨some "G", exC8root, none⟩

/-- The per-dependency license texts of `exC8root`. -/
def exC8f : String → String := fun d => if d = "aaa" then "A" else "B"

/-- Example third_party tree whose only library has an empty LICENSE file. -/
def exC9root : FSDir := .mk [] [("emptylib", .mk [("LICENSE", "")] [])]

/-- Example invocation over `exC9root` with a pre-existing output file. -/
def exC9args : RunArgs := ⟨some "G", exC9root, some "old"⟩

/-- Example third_party tree with no eligible dependency: a stray file, a
pruned directory and a gclient temporary directory. -/
def exC10root : FSDir :=
  .mk [("stray.txt", "x")] [("config", .mk [] []), ("_gclient_abc", .mk [] [])]

/-- Example invocation over `exC10root` with no goma LICENSE file and a
pre-existing output file. -/
def exC10args : RunArgs := ⟨none, exC10root, some "old"⟩

theorem lexLt_irrefl : ∀ l : List Char, lexLt l l = false
  | [] => rfl
  | a :: as => by
    rw [lexLt, if_neg (lt_irrefl a), if_neg (lt_irrefl a)]
    exact lexLt_irrefl as

theorem lexLt_trans : ∀ (a b c : List Char),
    lexLt a b = true → lexLt b c = true → lexLt a c = true
  | [], [], _, h1, _ => absurd h1 (by simp [lexLt])
  | [], _ :: _, [], _, h2 => absurd h2 (by simp [lexLt])
  | [], _ :: _, _ :: _, _, _ => rfl
  | _ :: _, [], _, h1, _ => absurd h1 (by simp [lexLt])
  | _ :: _, _ :: _, [], _, h2 => absurd h2 (by simp [lexLt])
  | x :: as, y :: bs, z :: cs, h1, h2 => by
    rw [lexLt] at h1 h2 ⊢
    rcases lt_trichotomy x y with hxy | hxy | hxy
    · rcases lt_trichotomy y z with hyz | hyz | hyz
      · rw [if_pos (lt_trans hxy hyz)]
      · subst hyz; rw [if_pos hxy]
      · rw [if_neg (lt_asymm hyz), if_pos hyz] at h2; exact Bool.noConfusion h2
    · subst hxy
      rw [if_neg (lt_irrefl x), if_neg (lt_irrefl x)] at h1
      rcases lt_trichotomy x z with hxz | hxz | hxz
      · rw [if_pos hxz]
      · subst hxz
        rw [if_neg (lt_irrefl x), if_neg (lt_irrefl x)] at h2 ⊢
        exact lexLt_trans as bs cs h1 h2
      · rw [if_neg (lt_asymm hxz), if_pos hxz] at h2; exact Bool.noConfusion h2
    · rw [if_neg (lt_asymm hxy), if_pos hxy] at h1; exact Bool.noConfusion h1

theorem lexLt_connect : ∀ (a b : List Char),
    lexLt a b = false → lexLt b a = false → a = b
  | [], [], _, _ => rfl
  | [], _ :: _, h1, _ => absurd h1 (by simp [lexLt])
  | _ :: _, [], _, h2 => absurd h2 (by simp [lexLt])
  | x :: as, y :: bs, h1, h2 => by
    rw [lexLt] at h1 h2
    rcases lt_trichotomy x y with hxy | hxy | hxy
    · rw [if_pos hxy] at h1; exact Bool.noConfusion h1
    · subst hxy
      rw [if_neg (lt_irrefl x), if_neg (lt_irrefl x)] at h1 h2
      rw [lexLt_connect as bs h1 h2]
    · rw [if_neg (lt_asymm hxy), if_pos hxy] at h2; exact Bool.noConfusion h2

theorem lexLt_asymm {a b : List Char} (h : lexLt a b = true) : lexLt b a = false := by
  cases hba : lexLt b a with
  | false => rfl
  | true =>
    have hcon := lexLt_trans a b a h hba
    rw [lexLt_irrefl] at hcon
    exact Bool.noConfusion hcon

theorem strLe_refl (a : String) : strLe a a = true := by
  simp [strLe, strLt, lexLt_irrefl]

theorem strLe_total (a b : String) : strLe a b = true ∨ strLe b a = true := by
  simp only [strLe, strLt, Bool.not_eq_true']
  cases h : lexLt b.data a.data
  · exact Or.inl rfl
  · exact Or.inr (lexLt_asymm h)

theorem strLe_trans {a b c : String} (h1 : strLe a b = true) (h2 : strLe b c = true) :
    strLe a c = true := by
  simp only [strLe, strLt, Bool.not_eq_true'] at h1 h2 ⊢
  cases hca : lexLt c.data a.data with
  | false => rfl
  | true =>
    cases hbc : lexLt b.data c.data with
    | false =>
      have hbceq := lexLt_connect b.data c.data hbc h2
      rw [← hbceq] at hca
      rw [hca] at h1
      exact Bool.noConfusion h1
    | true =>
      have hba := lexLt_trans b.data c.data a.data hbc hca
      rw [hba] at h1
      exact Bool.noConfusion h1

theorem strLe_antisymm {a b : String} (h1 : strLe a b = true) (h2 : strLe b a = true) :
    a = b := by
  simp only [strLe, strLt, Bool.not_eq_true'] at h1 h2
  exact String.ext (lexLt_connect a.data b.data h2 h1)

theorem strLe_of_not {x y : String} (h : ¬ strLe x y = true) : strLe y x = true := by
  simp only [strLe, strLt, Bool.not_eq_true', Bool.not_eq_false] at h ⊢
  exact lexLt_asymm h

theorem insertStr_perm (x : String) : ∀ l : List String, List.Perm (insertStr x l) (x :: l)
  | [] => List.Perm.refl _
  | y :: ys => by
    rw [insertStr]
    split
    · exact List.Perm.refl _
    · exact ((insertStr_perm x ys).cons y).trans (List.Perm.swap x y ys)

theorem sortStrings_perm : ∀ l : List String, List.Perm (sortStrings l) l
  | [] => List.Perm.refl _
  | x :: xs => by
    rw [sortStrings]
    exact (insertStr_perm x (sortStrings xs)).trans ((sortStrings_perm xs).cons x)

theorem pairwise_insertStr {x : String} : ∀ {l : List String},
    l.Pairwise (fun a b => strLe a b = true) →
    (insertStr x l).Pairwise (fun a b => strLe a b = true)
  | [], _ => by simp [insertStr]
  | y :: ys, h => by
    rw [insertStr]
    split
    next hxy =>
      refine List.Pairwise.cons ?_ h
      intro z hz
      rcases List.mem_cons.mp hz with rfl | hz2
      · exact hxy
      · exact strLe_trans hxy (List.rel_of_pairwise_cons h hz2)
    next hxy =>
      refine List.Pairwise.cons ?_ (pairwise_insertStr (List.Pairwise.of_cons h))
      intro z hz
      rcases List.mem_cons.mp ((insertStr_perm x ys).mem_iff.mp hz) with rfl | hz2
      · exact strLe_of_not hxy
      · exact List.rel_of_pairwise_cons h hz2

theorem sortStrings_sorted : ∀ l : List String,
    (sortStrings l).Pairwise (fun a b => strLe a b = true)
  | [] => List.Pairwise.nil
  | x :: xs => by
    rw [sortStrings]
    exact pairwise_insertStr (sortStrings_sorted xs)

theorem renderBlock_ne_empty (t b : String) : renderBlock t b ≠ "" := by
  intro h
  have hlen := congrArg String.length h
  have h1 : ("\n" : String).length = 1 := rfl
  have h0 : ("" : String).length = 0 := rfl
  simp only [renderBlock, String.length_append, h1, h0] at hlen
  omega

theorem addLicenseFile_empty (t b : String) : AddLicenseFile "" t b = renderBlock t b := by
  simp [AddLicenseFile, renderBlock]

theorem addLicenseFile_cons {acc : String} (t b : String) (h : acc ≠ "") :
    AddLicenseFile acc t b = acc ++ ("\n\n" ++ renderBlock t b) := by
  simp [AddLicenseFile, renderBlock, h, String.append_assoc]

theorem addLicenseFile_ne_empty (acc t b : String) : AddLicenseFile acc t b ≠ "" := by
  by_cases h : acc = ""
  · subst h
    rw [addLicenseFile_empty]
    exact renderBlock_ne_empty t b
  · rw [addLicenseFile_cons t b h]
    intro hc
    have hlen := congrArg String.length hc
    have h2 : ("\n\n" : String).length = 2 := rfl
    have h0 : ("" : String).length = 0 := rfl
    simp only [String.length_append, h2, h0] at hlen
    omega

theorem foldl_addLicenseFile_ne :
    ∀ (blocks : List (String × String)) (acc : String), acc ≠ "" →
    blocks.foldl (fun a q => AddLicenseFile a q.1 q.2) acc
      = blocks.foldl (fun a q => a ++ ("\n\n" ++ renderBlock q.1 q.2)) acc
  | [], _, _ => rfl
  | q :: rest, acc, h => by
    rw [List.foldl_cons, List.foldl_cons, addLicenseFile_cons q.1 q.2 h]
    rw [← addLicenseFile_cons q.1 q.2 h]
    exact foldl_addLicenseFile_ne rest _ (addLicenseFile_ne_empty acc q.1 q.2)

theorem foldl_addLicenseFile_renderDoc (blocks : List (String × String)) :
    blocks.foldl (fun a q => AddLicenseFile a q.1 q.2) "" = renderDoc blocks := by
  cases blocks with
  | nil => rfl
  | cons q rest =>
    rw [List.foldl_cons, addLicenseFile_empty, renderDoc]
    rw [foldl_addLicenseFile_ne rest _ (renderBlock_ne_empty q.1 q.2)]

theorem foldl_addLicenseFile_block (t b : String) (blocks : List (String × String)) :
    blocks.foldl (fun a q => AddLicenseFile a q.1 q.2) (renderBlock t b)
      = renderDoc ((t, b) :: blocks) := by
  rw [renderDoc]
  exact foldl_addLicenseFile_ne blocks _ (renderBlock_ne_empty t b)

theorem processDeps_ok (root : FSDir) (f : String → String) :
    ∀ (ds : List String) (acc : String),
    (∀ d ∈ ds, FindLicense root d = .ok (some (f d)) ∧ f d ≠ "") →
    processDeps root ds acc
      = .ok ((ds.map (fun d => (d, f d))).foldl (fun a q => AddLicenseFile a q.1 q.2) acc)
  | [], _, _ => rfl
  | d :: rest, acc, h => by
    obtain ⟨hfd, hne⟩ := h d (List.mem_cons_self d rest)
    simp only [processDeps, hfd, if_neg hne, List.map_cons, List.foldl_cons]
    exact processDeps_ok root f rest (AddLicenseFile acc d (f d))
      (fun x hx => h x (List.mem_cons_of_mem d hx))

theorem processDeps_error (root : FSDir) (f : String → String) (e : RunError) (d : String) :
    ∀ (pre post : List String) (acc : String),
    (∀ x ∈ pre, FindLicense root x = .ok (some (f x)) ∧ f x ≠ "") →
    (FindLicense root d = .error e ∨
      (FindLicense root d = .ok none ∧ e = .licenseNotFound d) ∨
      (FindLicense root d = .ok (some "") ∧ e = .licenseNotFound d)) →
    processDeps root (pre ++ d :: post) acc = .error e
  | [], post, acc, _, he => by
    rcases he with h | ⟨h, rfl⟩ | ⟨h, rfl⟩
    · simp only [List.nil_append, processDeps, h]
    · simp only [List.nil_append, processDeps, h]
    · simp only [List.nil_append, processDeps, h, if_pos rfl, if_true]
  | x :: pre, post, acc, hpre, he => by
    obtain ⟨hfx, hne⟩ := hpre x (List.mem_cons_self x pre)
    simp only [List.cons_append, processDeps, hfx, if_neg hne]
    exact processDeps_error root f e d pre post _
      (fun z hz => hpre z (List.mem_cons_of_mem x hz)) he

theorem runMain_success (a : RunArgs) (f : String → String)
    (hall : ∀ d ∈ scanDeps a.third_party,
      FindLicense a.third_party d = .ok (some (f d)) ∧ f d ≠ "") :
    runMain a = ⟨.ok (renderDoc (primaryBlocks a ++ depBlocks a.third_party f)),
                 some (renderDoc (primaryBlocks a ++ depBlocks a.third_party f))⟩ := by
  cases hg : a.goma_license with
  | none =>
    simp only [runMain, hg, processDeps_ok a.third_party f _ "" hall,
      foldl_addLicenseFile_renderDoc]
    simp [primaryBlocks, hg, depBlocks]
  | some c =>
    simp only [runMain, hg, addLicenseFile_empty,
      processDeps_ok a.third_party f _ (renderBlock "Goma Client" c) hall,
      foldl_addLicenseFile_block]
    simp [primaryBlocks, hg, depBlocks]

theorem isdir_iff_mem (root : FSDir) (name : String) :
    isdir root name = true ↔ name ∈ root.subdirs.map Prod.fst := by
  simp only [isdir, lookupDir, Option.isSome_map', List.find?_isSome]
  constructor
  · rintro ⟨q, hq, hbeq⟩
    exact List.mem_map.mpr ⟨q, hq, by simpa using hbeq⟩
  · intro hmem
    obtain ⟨q, hq, rfl⟩ := List.mem_map.mp hmem
    exact ⟨q, hq, by simp⟩

theorem scanDeps_eq_scannerSpec {root : FSDir} (h : root.wfNames) :
    scanDeps root = scannerSpec root := by
  have hsorted1 : (scanDeps root).Pairwise (fun a b => strLe a b = true) :=
    List.Pairwise.filter (keepDep root) (sortStrings_sorted (listdir root))
  have hsorted2 : (scannerSpec root).Pairwise (fun a b => strLe a b = true) :=
    sortStrings_sorted _
  have hfiles : (root.files.map Prod.fst).filter (keepDep root) = [] := by
    rw [List.filter_eq_nil_iff]
    intro a ha hk
    have hdir : isdir root a = true := by
      simp only [keepDep, Bool.and_eq_true] at hk
      exact hk.1.1
    exact List.disjoint_of_nodup_append h ha ((isdir_iff_mem root a).mp hdir)
  have hdirs : (root.subdirs.map Prod.fst).filter (keepDep root)
      = (root.subdirs.map Prod.fst).filter
          (fun d => !(strStartsWith d "_gclient_") && !(PRUNE_DIRS.contains d)) := by
    apply List.filter_congr
    intro a ha
    have hdir : isdir root a = true := (isdir_iff_mem root a).mpr ha
    simp [keepDep, hdir]
  have hperm : List.Perm (scanDeps root) (scannerSpec root) := by
    have h1 : List.Perm (scanDeps root) ((listdir root).filter (keepDep root)) :=
      List.Perm.filter (keepDep root) (sortStrings_perm (listdir root))
    have h2 : (listdir root).filter (keepDep root)
        = (root.subdirs.map Prod.fst).filter
            (fun d => !(strStartsWith d "_gclient_") && !(PRUNE_DIRS.contains d)) := by
      rw [listdir, List.filter_append, hfiles, hdirs, List.nil_append]
    rw [h2] at h1
    exact h1.trans (sortStrings_perm _).symm
  haveI : IsAntisymm String (fun a b => strLe a b = true) :=
    ⟨fun _ _ h1 h2 => strLe_antisymm h1 h2⟩
  exact List.eq_of_perm_of_sorted hperm hsorted1 hsorted2

theorem scanDeps_eq_nil {root : FSDir}
    (h : ∀ q ∈ root.subdirs,
      PRUNE_DIRS.contains q.1 = true ∨ strStartsWith q.1 "_gclient_" = true) :
    scanDeps root = [] := by
  rw [scanDeps, List.filter_eq_nil_iff]
  intro a _ hk
  simp only [keepDep, Bool.and_eq_true] at hk
  obtain ⟨⟨hdir, hsw⟩, hct⟩ := hk
  obtain ⟨q, hq, rfl⟩ := List.mem_map.mp ((isdir_iff_mem root _).mp hdir)
  rcases h q hq with hc | hs
  · rw [hc] at hct
    exact Bool.noConfusion hct
  · rw [hs] at hsw
    exact Bool.noConfusion hsw

theorem firstLicense_eq_none : ∀ (fs : List (String × String)),
    (∀ q ∈ fs, IsLicenseFile q.1 = false) → firstLicense fs = none
  | [], _ => rfl
  | (n, c) :: rest, h => by
    have hn := h (n, c) (List.mem_cons_self _ _)
    rw [firstLicense, if_neg (by simp_all)]
    exact firstLicense_eq_none rest (fun q hq => h q (List.mem_cons_of_mem _ hq))

theorem firstLicense_first :
    ∀ (fpre : List (String × String)) (n c : String) (fpost : List (String × String)),
    IsLicenseFile n = true → (∀ q ∈ fpre, IsLicenseFile q.1 = false) →
    firstLicense (fpre ++ (n, c) :: fpost) = some c
  | [], n, c, fpost, hn, _ => by
    rw [List.nil_append, firstLicense, if_pos hn]
  | q :: rest, n, c, fpost, hn, hpre => by
    have hq := hpre q (List.mem_cons_self _ _)
    cases q with
    | mk qn qc =>
      rw [List.cons_append, firstLicense, if_neg (by simp_all)]
      exact firstLicense_first rest n c fpost hn
        (fun z hz => hpre z (List.mem_cons_of_mem _ hz))

theorem runMain_abort (a : RunArgs) (e : RunError) (d : String)
    (pre post : List String) (f : String → String)
    (hscan : scanDeps a.third_party = pre ++ d :: post)
    (hpre : ∀ x ∈ pre, FindLicense a.third_party x = .ok (some (f x)) ∧ f x ≠ "")
    (he : FindLicense a.third_party d = .error e ∨
      (FindLicense a.third_party d = .ok none ∧ e = .licenseNotFound d) ∨
      (FindLicense a.third_party d = .ok (some "") ∧ e = .licenseNotFound d)) :
    runMain a = ⟨.error e, a.output_prev⟩ := by
  cases hg : a.goma_license with
  | none =>
    simp only [runMain, hg, hscan,
      processDeps_error a.third_party f e d pre post "" hpre he]
  | some c =>
    simp only [runMain, hg, hscan,
      processDeps_error a.third_party f e d pre post
        (AddLicenseFile "" "Goma Client" c) hpre he]

/-- C1: when a scanned dependency `d` resolves to "not found" (every earlier
dependency in scan order having resolved to a nonempty text), the run aborts
with the exception naming `d`, later dependencies are never processed (the
outcome does not depend on `post`), and the output file keeps its previous
contents — it is never opened or written. -/
theorem claim_C1 (a : RunArgs) (pre post : List String) (d : String)
    (f : String → String)
    (hscan : scanDeps a.third_party = pre ++ d :: post)
    (hpre : ∀ x ∈ pre, FindLicense a.third_party x = .ok (some (f x)) ∧ f x ≠ "")
    (hd : FindLicense a.third_party d = .ok none) :
    (runMain a).result = .error (RunError.licenseNotFound d) ∧
    (runMain a).output_file = a.output_prev ∧
    RunError.message (RunError.licenseNotFound d) = "license file not found in " ++ d := by
  rw [runMain_abort a (RunError.licenseNotFound d) d pre post f hscan hpre
    (Or.inr (Or.inl ⟨hd, rfl⟩))]
  exact ⟨rfl, rfl, rfl⟩

theorem claim_C1_witness :
    scanDeps exC1args.third_party = ["aaa"] ++ "bbb" :: [] ∧
    (∀ x ∈ ["aaa"], FindLicense exC1args.third_party x = .ok (some "MIT") ∧ "MIT" ≠ "") ∧
    FindLicense exC1args.third_party "bbb" = .ok none ∧
    ((runMain exC1args).result = .error (RunError.licenseNotFound "bbb") ∧
     (runMain exC1args).output_file = exC1args.output_prev ∧
     RunError.message (RunError.licenseNotFound "bbb") = "license file not found in " ++ "bbb") :=
  ⟨by decide, by decide, by decide,
   claim_C1 exC1args ["aaa"] [] "bbb" (fun _ => "MIT") (by decide) (by decide) (by decide)⟩

/-- C2 counterexample: a successful run over a single dependency `libA` with
license text `MIT` produces `libA\n====\nMIT` — there is no blank line
between the `=` underline and the body, so the output differs from the
claimed `<title>\n<underline>\n\n<body>` rendering of the same blocks. -/
theorem claim_C2_counterexample :
    (runMain exC2args).result = .ok "libA\n====\nMIT" ∧
    "libA\n====\nMIT" ≠ renderDocClaim [("libA", "MIT")] :=
  ⟨rfl, by decide⟩

/-- C2 as amended: on every successful run the output document is the
blocks rendered as title line, `=` underline of the title's length, then
the license body directly on the next line (no blank line in between),
consecutive blocks joined by the two-character separator `"\n\n"` (one
blank line when the previous body lacks a trailing newline). -/
theorem claim_C2_amended (a : RunArgs) (f : String → String)
    (hall : ∀ d ∈ scanDeps a.third_party,
      FindLicense a.third_party d = .ok (some (f d)) ∧ f d ≠ "") :
    (runMain a).result = .ok (renderDoc (primaryBlocks a ++ depBlocks a.third_party f)) ∧
    (runMain a).output_file = some (renderDoc (primaryBlocks a ++ depBlocks a.third_party f)) := by
  rw [runMain_success a f hall]
  exact ⟨rfl, rfl⟩

theorem claim_C2_witness :
    (∀ d ∈ scanDeps exC2args.third_party,
      FindLicense exC2args.third_party d = .ok (some "MIT") ∧ "MIT" ≠ "") ∧
    ((runMain exC2args).result
        = .ok (renderDoc (primaryBlocks exC2args ++ depBlocks exC2args.third_party (fun _ => "MIT"))) ∧
     (runMain exC2args).output_file
        = some (renderDoc (primaryBlocks exC2args ++ depBlocks exC2args.third_party (fun _ => "MIT")))) :=
  ⟨by decide, claim_C2_amended exC2args (fun _ => "MIT") (by decide)⟩

/-- C3: for a root directory whose entry names are distinct (as on a real
filesystem), the Scanner's output equals the immediate subdirectory names
minus the prune set and the `_gclient_`-prefixed names, in ascending
lexicographic order; in particular it is sorted. -/
theorem claim_C3 (root : FSDir) (h : root.wfNames) :
    scanDeps root = scannerSpec root ∧
    (scanDeps root).Pairwise (fun a b => strLe a b = true) :=
  ⟨scanDeps_eq_scannerSpec h,
   List.Pairwise.filter (keepDep root) (sortStrings_sorted (listdir root))⟩

theorem claim_C3_witness :
    exC3root.wfNames ∧
    (scanDeps exC3root = scannerSpec exC3root ∧
     (scanDeps exC3root).Pairwise (fun a b => strLe a b = true)) :=
  ⟨by decide, claim_C3 exC3root (by decide)⟩

/-- C4: for a dependency registered in the override map, the Resolver
returns exactly the contents of the override file at the third_party root,
for every root tree in which that file exists — in particular regardless of
what license files exist anywhere in the dependency's own subtree, which is
never searched. -/
theorem claim_C4 (root : FSDir) (name p c : String)
    (hov : lookupOverride name = some p) (hfile : lookupFile root p = some c) :
    FindLicense root name = .ok (some c) := by
  simp only [FindLicense, hov, hfile]

theorem claim_C4_witness :
    lookupOverride "lss" = some "LICENSE.lss" ∧
    lookupFile exC4root "LICENSE.lss" = some "BSD" ∧
    FindLicense exC4root "lss" = .ok (some "BSD") :=
  ⟨by decide, by decide,
   claim_C4 exC4root "lss" "LICENSE.lss" "BSD" (by decide) (by decide)⟩

/-- C5 counterexample: with a non-existing primary license path the run
does not fail — it succeeds and aggregates the third-party dependencies,
contradicting the claim that a missing primary license path is fatal. -/
theorem claim_C5_counterexample :
    exC5args.goma_license = none ∧
    (runMain exC5args).result = .ok "libA\n====\nMIT" :=
  ⟨rfl, rfl⟩

/-- C5 as amended: a primary license path that does not refer to an
existing file is an allowed absence, not an error: the primary block is
silently skipped and the run proceeds with third-party aggregation alone,
whose outcome alone determines the result and the output file. -/
theorem claim_C5_amended (a : RunArgs) (h : a.goma_license = none) :
    (runMain a).result = processDeps a.third_party (scanDeps a.third_party) "" ∧
    (runMain a).output_file =
      (match processDeps a.third_party (scanDeps a.third_party) "" with
       | .ok doc => some doc
       | .error _ => a.output_prev) := by
  cases hp : processDeps a.third_party (scanDeps a.third_party) "" <;>
    simp [runMain, h, hp]

theorem claim_C5_witness :
    exC5args.goma_license = none ∧
    ((runMain exC5args).result = processDeps exC5args.third_party (scanDeps exC5args.third_party) "" ∧
     (runMain exC5args).output_file =
       (match processDeps exC5args.third_party (scanDeps exC5args.third_party) "" with
        | .ok doc => some doc
        | .error _ => exC5args.output_prev)) :=
  ⟨rfl, claim_C5_amended exC5args rfl⟩

/-- C6: for a dependency without an override, the Resolver returns exactly
the first file of the subtree's walk whose name is one of LICENSE,
LICENSE.md, LICENSE.rst, COPYING, COPYING.txt: it returns "not found" when
no walked file has such a name, and the contents of the first so-named file
otherwise. -/
theorem claim_C6 (root : FSDir) (name : String) (dir : FSDir)
    (hov : lookupOverride name = none) (hdir : lookupDir root name = some dir) :
    FindLicense root name = .ok (firstLicense dir.walkFiles) ∧
    ((∀ q ∈ dir.walkFiles, IsLicenseFile q.1 = false) →
      FindLicense root name = .ok none) ∧
    (∀ (fpre fpost : List (String × String)) (n c : String),
      dir.walkFiles = fpre ++ (n, c) :: fpost →
      IsLicenseFile n = true → (∀ q ∈ fpre, IsLicenseFile q.1 = false) →
      FindLicense root name = .ok (some c)) := by
  have hchar : FindLicense root name = .ok (firstLicense dir.walkFiles) := by
    simp only [FindLicense, hov, hdir]
  refine ⟨hchar, ?_, ?_⟩
  · intro hnone
    rw [hchar, firstLicense_eq_none dir.walkFiles hnone]
  · intro fpre fpost n c hsplit hn hpre
    rw [hchar, hsplit, firstLicense_first fpre n c fpost hn hpre]

theorem claim_C6_witness :
    lookupOverride "dep" = none ∧
    lookupDir exC6root "dep" = some exC6dep ∧
    (FindLicense exC6root "dep" = .ok (firstLicense exC6dep.walkFiles) ∧
     ((∀ q ∈ exC6dep.walkFiles, IsLicenseFile q.1 = false) →
       FindLicense exC6root "dep" = .ok none) ∧
     (∀ (fpre fpost : List (String × String)) (n c : String),
       exC6dep.walkFiles = fpre ++ (n, c) :: fpost →
       IsLicenseFile n = true → (∀ q ∈ fpre, IsLicenseFile q.1 = false) →
       FindLicense exC6root "dep" = .ok (some c))) :=
  ⟨by decide, rfl, claim_C6 exC6root "dep" exC6dep (by decide) rfl⟩

/-- C7: when an override is registered for a dependency but the referenced
file does not exist at the third_party root, resolution raises — it never
falls back to the filename search and never reports "not found" — and any
run that reaches this dependency (earlier scanned dependencies having
resolved) aborts with that exception, leaving the output file untouched. -/
theorem claim_C7 (root : FSDir) (name p : String)
    (hov : lookupOverride name = some p) (hmiss : lookupFile root p = none) :
    FindLicense root name = .error (RunError.ioError p) ∧
    (∀ (a : RunArgs) (pre post : List String) (f : String → String),
      a.third_party = root →
      scanDeps root = pre ++ name :: post →
      (∀ x ∈ pre, FindLicense root x = .ok (some (f x)) ∧ f x ≠ "") →
      runMain a = ⟨.error (RunError.ioError p), a.output_prev⟩) := by
  have hf : FindLicense root name = .error (.ioError p) := by
    simp only [FindLicense, hov, hmiss]
  refine ⟨hf, ?_⟩
  intro a pre post f hroot hscan hpre
  subst hroot
  exact runMain_abort a (.ioError p) name pre post f hscan hpre (Or.inl hf)

theorem claim_C7_witness :
    lookupOverride "zlib" = some "LICENSE.zlib" ∧
    lookupFile exC7root "LICENSE.zlib" = none ∧
    (FindLicense exC7root "zlib" = .error (RunError.ioError "LICENSE.zlib") ∧
     (∀ (a : RunArgs) (pre post : List String) (f : String → String),
       a.third_party = exC7root →
       scanDeps exC7root = pre ++ "zlib" :: post →
       (∀ x ∈ pre, FindLicense exC7root x = .ok (some (f x)) ∧ f x ≠ "") →
       runMain a = ⟨.error (RunError.ioError "LICENSE.zlib"), a.output_prev⟩)) :=
  ⟨by decide, by decide, claim_C7 exC7root "zlib" "LICENSE.zlib" (by decide) (by decide)⟩

/-- C8: on every successful run the output is the rendering of the primary
`Goma Client` block — present exactly when the goma LICENSE file exists,
first by construction of `primaryBlocks` — followed by one block per
scanned dependency titled with its name, in the Scanner's order, which is
ascending lexicographic. -/
theorem claim_C8 (a : RunArgs) (f : String → String)
    (hall : ∀ d ∈ scanDeps a.third_party,
      FindLicense a.third_party d = .ok (some (f d)) ∧ f d ≠ "") :
    (runMain a).result = .ok (renderDoc (primaryBlocks a ++ depBlocks a.third_party f)) ∧
    (scanDeps a.third_party).Pairwise (fun x y => strLe x y = true) :=
  ⟨by rw [runMain_success a f hall],
   List.Pairwise.filter (keepDep a.third_party) (sortStrings_sorted (listdir a.third_party))⟩

theorem claim_C8_witness :
    (∀ d ∈ scanDeps exC8args.third_party,
      FindLicense exC8args.third_party d = .ok (some (exC8f d)) ∧ exC8f d ≠ "") ∧
    ((runMain exC8args).result
        = .ok (renderDoc (primaryBlocks exC8args ++ depBlocks exC8args.third_party exC8f)) ∧
     (scanDeps exC8args.third_party).Pairwise (fun x y => strLe x y = true)) :=
  ⟨by decide, claim_C8 exC8args exC8f (by decide)⟩

/-- C9: when a scanned dependency's resolved license text is the empty
string (its license or override file exists but is empty), the run aborts
with the same "license file not found" exception naming that dependency,
and the output file keeps its previous contents: success requires every
resolved text to be nonempty. -/
theorem claim_C9 (a : RunArgs) (pre post : List String) (d : String)
    (f : String → String)
    (hscan : scanDeps a.third_party = pre ++ d :: post)
    (hpre : ∀ x ∈ pre, FindLicense a.third_party x = .ok (some (f x)) ∧ f x ≠ "")
    (hd : FindLicense a.third_party d = .ok (some "")) :
    (runMain a).result = .error (RunError.licenseNotFound d) ∧
    (runMain a).output_file = a.output_prev ∧
    RunError.message (RunError.licenseNotFound d) = "license file not found in " ++ d := by
  rw [runMain_abort a (RunError.licenseNotFound d) d pre post f hscan hpre
    (Or.inr (Or.inr ⟨hd, rfl⟩))]
  exact ⟨rfl, rfl, rfl⟩

theorem claim_C9_witness :
    scanDeps exC9args.third_party = [] ++ "emptylib" :: [] ∧
    FindLicense exC9args.third_party "emptylib" = .ok (some "") ∧
    ((runMain exC9args).result = .error (RunError.licenseNotFound "emptylib") ∧
     (runMain exC9args).output_file = exC9args.output_prev ∧
     RunError.message (RunError.licenseNotFound "emptylib")
        = "license file not found in " ++ "emptylib") :=
  ⟨by decide, by decide,
   claim_C9 exC9args [] [] "emptylib" (fun _ => "") (by decide)
     (by intro x hx; exact absurd hx (List.not_mem_nil x)) (by decide)⟩

/-- C10: when the goma LICENSE file does not exist and every immediate
subdirectory of the third_party root is pruned or `_gclient_`-prefixed
(file entries being skipped as non-directories), the run succeeds and
writes the empty document to the output file, overwriting any previous
contents. -/
theorem claim_C10 (a : RunArgs) (hg : a.goma_license = none)
    (hsub : ∀ q ∈ a.third_party.subdirs,
      PRUNE_DIRS.contains q.1 = true ∨ strStartsWith q.1 "_gclient_" = true) :
    runMain a = ⟨.ok "", some ""⟩ := by
  simp [runMain, hg, scanDeps_eq_nil hsub, processDeps]

theorem claim_C10_witness :
    exC10args.goma_license = none ∧
    (∀ q ∈ exC10args.third_party.subdirs,
      PRUNE_DIRS.contains q.1 = true ∨ strStartsWith q.1 "_gclient_" = true) ∧
    runMain exC10args = ⟨.ok "", some ""⟩ :=
  ⟨rfl, by decide, claim_C10 exC10args rfl (by decide)⟩

end Licenses
